import Mathlib

/-!
Verification of the scan/match/replace core of the "Fix Unlinked Components"
Figma plugin (`src/plugin/code.ts`), shallowly embedded in Lean.

The host document is modelled as the data the plugin code reads through the
Figma API boundary: pages with their node enumeration in traversal order
(`findAll` / `findAllWithCriteria` are host primitives), each instance node
carrying the outcome of `getMainComponentAsync()` as an `Except` value, and
fallible host mutation (`swapComponent`) as a boolean flag on the instance.
-/

set_option linter.unusedVariables false

namespace FixUnlinked

/-- Lower-casing a string character by character; models the JS
`String.prototype.toLowerCase()` used for all name comparisons. -/
def strLower (s : String) : String := ⟨s.data.map Char.toLower⟩

/-- Snapshot of the node returned by `instance.getMainComponentAsync()` — exactly the
fields read at `code.ts:30-35` and `code.ts:56`: `name`, `parent`, `removed`, `remote`,
`type` (a node-kind tag, `"COMPONENT"` for a plain component). -/
structure MainComponentInfo where
  name : String
  parent : Option String
  removed : Bool
  remote : Bool
  nodeType : String
deriving Repr, DecidableEq

/-- An `InstanceNode` of the document. `mainComponent` models
`await instance.getMainComponentAsync()`: `.error ()` a rejected promise,
`.ok none` a `null` result, `.ok (some m)` a resolved component snapshot.
`swapThrows` models whether the host `swapComponent` call throws for this instance. -/
structure InstData where
  id : String
  name : String
  mainComponent : Except Unit (Option MainComponentInfo)
  swapThrows : Bool
deriving Repr

/-- A `ComponentNode` reachable in the local document tree, with the flags the
spec's invariant (§3) talks about. -/
structure ComponentData where
  id : String
  name : String
  removed : Bool
  remote : Bool
deriving Repr, DecidableEq

/-- A document node: a named container (frame/group/section), an instance, or a
component definition. -/
inductive NodeData where
  | frameD (id : String) (name : String)
  | instD (d : InstData)
  | compD (c : ComponentData)
deriving Repr

/-- The `id` of a node (every Figma node has one). -/
def nodeIdOf : NodeData → String
  | .frameD id _ => id
  | .instD d => d.id
  | .compD c => c.id

/-- A page: its name and all descendant nodes in tree-traversal order; each node
carries the names of its ancestors below the page, nearest first — the chain the
parent-name walk at `code.ts:39-47` climbs through `.parent` pointers. -/
structure Page where
  name : String
  nodes : List (List String × NodeData)
deriving Repr

/-- The document as read by the plugin: `figma.currentPage` and `figma.root.children`. -/
structure DocState where
  currentPage : Page
  allPages : List Page
deriving Repr

/-- The scan scope (`'current-page' | 'entire-document'`). -/
inductive Scope where
  | currentPage
  | entireDocument
deriving Repr, DecidableEq

/-- `code.ts:18`: `scope === 'current-page' ? [figma.currentPage] : figma.root.children`. -/
def pagesToScan (scope : Scope) (s : DocState) : List Page :=
  match scope with
  | .currentPage => [s.currentPage]
  | .entireDocument => s.allPages

/-- `page.findAll((node) => node.type === 'INSTANCE')` (`code.ts:21`): every instance
node of the page's subtree in traversal order, keeping its ancestor-name chain. -/
def instancesWithCtx (pg : Page) : List (List String × InstData) :=
  pg.nodes.filterMap (fun p =>
    match p.2 with
    | .instD d => some (p.1, d)
    | _ => none)

/-- The components of one page's subtree, in traversal order. -/
def pageComponents (pg : Page) : List ComponentData :=
  pg.nodes.filterMap (fun p =>
    match p.2 with
    | .compD c => some c
    | _ => none)

/-- `figma.root.findAllWithCriteria({ types: ['COMPONENT'] })` (`code.ts:69-71` and
`code.ts:124-126`): every component of the document, in traversal order. -/
def allComponentsOf (s : DocState) : List ComponentData :=
  (s.allPages.map pageComponents).flatten

/-- `await figma.getNodeByIdAsync(instanceId)` (`code.ts:114`): the document node with
the given id, if any. -/
def getNodeById (s : DocState) (id : String) : Option NodeData :=
  ((s.allPages.map Page.nodes).flatten.find? (fun p => nodeIdOf p.2 == id)).map (fun p => p.2)

/-- Modelled from the spec: the `UnlinkedInstance` record type of the repository's
`src/types.ts`, which is not under `src/` (§3 UnlinkedInstanceRecord): the optional
`deletedDefinitionName` is "recorded ... if retrievable; otherwise absent" and the
matched fields are `null` when no candidate exists. Field names follow the source's
usage of the type in `code.ts` and `App.tsx`. -/
structure UnlinkedInstance where
  instanceId : String
  instanceName : String
  pageName : String
  parentName : String
  matchedComponentId : Option String
  matchedComponentName : Option String
  deletedComponentName : Option String
deriving Repr, DecidableEq

/-- The classification at `code.ts:30-35`: `mainComponent !== null &&
mainComponent.parent === null && mainComponent.removed === false &&
mainComponent.remote === false && mainComponent.type === 'COMPONENT'`. -/
def isUnlinked (mainComponent : Option MainComponentInfo) : Bool :=
  match mainComponent with
  | none => false
  | some m => m.parent.isNone && m.removed == false && m.remote == false && m.nodeType == "COMPONENT"

/-- The parent-name walk at `code.ts:39-47`: climb ancestors below the page and take the
first truthy (non-empty) name, defaulting to `"Root"`. -/
def walkParentName : List String → String
  | [] => "Root"
  | n :: rest => if n == "" then walkParentName rest else n

/-- The record pushed at `code.ts:49-57` for an unlinked instance. -/
def mkRecord (pageName : String) (ancestors : List String) (d : InstData) (m : MainComponentInfo) : UnlinkedInstance :=
  { instanceId := d.id
    instanceName := d.name
    pageName := pageName
    parentName := walkParentName ancestors
    matchedComponentId := none
    matchedComponentName := none
    deletedComponentName := some m.name }

/-- The inner instance loop of `findUnlinkedInstances` (`code.ts:23-59`): resolve each
instance's main component (a rejection aborts the whole scan — there is no per-item
catch here), classify, and push a record for each unlinked instance in order. -/
def scanItems (pageName : String) : List (List String × InstData) → Except Unit (List UnlinkedInstance)
  | [] => .ok []
  | (ancestors, d) :: rest =>
    match d.mainComponent with
    | .error e => .error e
    | .ok mainComponent =>
      match scanItems pageName rest with
      | .error e => .error e
      | .ok tail =>
        match mainComponent with
        | some m =>
            if isUnlinked (some m) then
              .ok (mkRecord pageName ancestors d m :: tail)
            else
              .ok tail
        | none => .ok tail

/-- The page loop of `findUnlinkedInstances` (`code.ts:20-60`). -/
def scanPages : List Page → Except Unit (List UnlinkedInstance)
  | [] => .ok []
  | pg :: rest =>
    match scanItems pg.name (instancesWithCtx pg) with
    | .error e => .error e
    | .ok here =>
      match scanPages rest with
      | .error e => .error e
      | .ok tail => .ok (here ++ tail)

/-- `findUnlinkedInstances` (`code.ts:10-63`). `loadAllPagesAsync` is a host read with no
effect on the modelled state. -/
def findUnlinkedInstances (scope : Scope) (s : DocState) : Except Unit (List UnlinkedInstance) :=
  scanPages (pagesToScan scope s)

/-- Lookup in a JS `Map` modelled as an insertion-ordered association list. -/
def mapGet {α : Type} : List (String × α) → String → Option α
  | [], _ => none
  | (k, v) :: rest, key => if k == key then some v else mapGet rest key

/-- `Map.prototype.set`: overwrite in place when the key exists, else append. -/
def mapSet {α : Type} : List (String × α) → String → α → List (String × α)
  | [], key, v => [(key, v)]
  | (k, w) :: rest, key, v => if k == key then (key, v) :: rest else (k, w) :: mapSet rest key v

/-- `new Map(entries)` (`code.ts:161`): every entry `set` in order, so a later duplicate
key overwrites an earlier one. -/
def jsMapOfList {α : Type} (entries : List (String × α)) : List (String × α) :=
  entries.foldl (fun m e => mapSet m e.1 e.2) []

/-- The component index of `findMatchingComponents` (`code.ts:74-81`): lower-cased name →
component, keeping only the first occurrence of each name
(`if (!componentMap.has(normalizedName)) componentMap.set(...)`). -/
def buildComponentMap (comps : List ComponentData) : List (String × ComponentData) :=
  comps.foldl
    (fun m c => if (mapGet m (strLower c.name)).isSome then m else mapSet m (strLower c.name) c)
    []

/-- JS `a || b` where `a` is an optional string: `b` when `a` is absent or the empty
string (both are falsy in JS). -/
def jsOr (a : Option String) (b : String) : String :=
  match a with
  | none => b
  | some s => if s == "" then b else s

/-- `findMatchingComponents` (`code.ts:66-100`): index all components of the document,
then annotate each record whose search key (`deletedComponentName || instanceName`,
lower-cased) hits the index. -/
def findMatchingComponents (s : DocState) (unlinkedInstances : List UnlinkedInstance) : List UnlinkedInstance :=
  let allComponents := allComponentsOf s
  let componentMap := buildComponentMap allComponents
  unlinkedInstances.map (fun inst =>
    let searchName := jsOr inst.deletedComponentName inst.instanceName
    let normalizedSearchName := strLower searchName
    match mapGet componentMap normalizedSearchName with
    | some matchedComponent =>
        { inst with
          matchedComponentId := some matchedComponent.id
          matchedComponentName := some matchedComponent.name }
    | none => inst)

/-- The result of `replaceInstances` (`code.ts:106`). -/
structure ReplaceResult where
  successCount : Nat
  totalCount : Nat
deriving Repr, DecidableEq

/-- The search key at `code.ts:128`:
`unlinkedInstance?.deletedComponentName || instance.name`. -/
def replaceSearchName (unlinkedInstancesMap : List (String × UnlinkedInstance)) (instanceId : String) (liveName : String) : String :=
  jsOr ((mapGet unlinkedInstancesMap instanceId).bind (fun u => u.deletedComponentName)) liveName

/-- One iteration of the `replaceInstances` loop (`code.ts:112-139`), the body of its
`try`: `.ok true` means the instance was repointed (`successCount++`), `.ok false`
means it was skipped (missing node, not an instance, or no matching component), and
`.error ()` means the host threw — caught at the per-item boundary by the caller. -/
def replaceOne (s : DocState) (unlinkedInstancesMap : List (String × UnlinkedInstance)) (instanceId : String) : Except Unit Bool :=
  match getNodeById s instanceId with
  | some (.instD inst) =>
      let allComponents := allComponentsOf s
      let searchName := replaceSearchName unlinkedInstancesMap instanceId inst.name
      match allComponents.find? (fun comp => strLower comp.name == strLower searchName) with
      | some _ => if inst.swapThrows then .error () else .ok true
      | none => .ok false
  | _ => .ok false

/-- Whether one requested identifier ends up counted in `successCount`. -/
def replaceSucceeds (s : DocState) (unlinkedInstancesMap : List (String × UnlinkedInstance)) (instanceId : String) : Bool :=
  match replaceOne s unlinkedInstancesMap instanceId with
  | .ok true => true
  | _ => false

/-- The success accumulation of the `replaceInstances` loop: each identifier contributes
1 exactly when its iteration repoints, and a caught per-item error contributes 0 without
stopping the iteration over the rest. -/
def successCountOf (s : DocState) (unlinkedInstancesMap : List (String × UnlinkedInstance)) : List String → Nat
  | [] => 0
  | id :: rest =>
      (match replaceOne s unlinkedInstancesMap id with
       | .ok true => 1
       | _ => 0) + successCountOf s unlinkedInstancesMap rest

/-- `replaceInstances` (`code.ts:103-142`). -/
def replaceInstances (s : DocState) (instanceIds : List String) (unlinkedInstancesMap : List (String × UnlinkedInstance)) : ReplaceResult :=
  { successCount := successCountOf s unlinkedInstancesMap instanceIds
    totalCount := instanceIds.length }

/-- Modelled from the spec: the UI-bound message protocol (§6) declared in the missing
`src/types.ts`; the `progress` variant is the notification the spec and README describe
and that `App.tsx:51-53` listens for. -/
inductive UIMessage where
  | scanResult (instances : List UnlinkedInstance)
  | replaceComplete (successCount : Nat) (totalCount : Nat)
  | progress (current : Nat) (total : Nat) (pageName : Option String)
  | errorMsg (message : String)
deriving Repr, DecidableEq

/-- Whether a UI message is a progress notification. -/
def UIMessage.isProgress : UIMessage → Bool
  | .progress _ _ _ => true
  | _ => false

/-- The `scan` branch of `figma.ui.onmessage` (`code.ts:147-155`) together with its
surrounding try/catch: the messages posted to the UI while handling one scan request. -/
def handleScan (s : DocState) (scope : Scope) : List UIMessage :=
  match findUnlinkedInstances scope s with
  | .ok unlinkedInstances => [.scanResult (findMatchingComponents s unlinkedInstances)]
  | .error _ => [.errorMsg "An unknown error occurred"]

/-- The `replace` branch of `figma.ui.onmessage` (`code.ts:156-169`): a fresh
current-page re-scan, a fresh id-keyed map of its records, then `replaceInstances`;
a scan failure propagates to the outer catch. -/
def handleReplace (s : DocState) (instanceIds : List String) : Except Unit ReplaceResult :=
  match findUnlinkedInstances .currentPage s with
  | .error e => .error e
  | .ok unlinkedInstances =>
      .ok (replaceInstances s instanceIds
            (jsMapOfList (unlinkedInstances.map (fun inst => (inst.instanceId, inst)))))

/-! Auxiliary predicates and declarative forms used by the theorems. -/

/-- Whether a `getMainComponentAsync` outcome resolved (did not reject). -/
def resolveOk : Except Unit (Option MainComponentInfo) → Bool
  | .ok _ => true
  | .error _ => false

/-- Every instance in scope resolves its main component without throwing. -/
def scanResolves (scope : Scope) (s : DocState) : Bool :=
  (pagesToScan scope s).all (fun pg => (instancesWithCtx pg).all (fun it => resolveOk it.2.mainComponent))

/-- Declarative description of the scan output: one record per in-scope instance whose
resolved main component satisfies `isUnlinked`, in traversal order, and no record for
any other instance. -/
def scanRecords (scope : Scope) (s : DocState) : List UnlinkedInstance :=
  ((pagesToScan scope s).map (fun pg =>
      (instancesWithCtx pg).filterMap (fun it =>
        match it.2.mainComponent with
        | .ok mc => if isUnlinked mc then mc.map (mkRecord pg.name it.1 it.2) else none
        | .error _ => none))).flatten

/-- Host invariant on the modelled document: a component reachable under `figma.root`
is not flagged removed and not remote (a detached or library component is not a node of
the local tree, so `findAllWithCriteria` never yields one). -/
def componentFlagsOk (s : DocState) : Bool :=
  (allComponentsOf s).all (fun c => c.removed == false && c.remote == false)

/-- Modelled from the spec: the Matcher search key as the claim words it —
"`deletedDefinitionName` if present, else `instanceName`" — for comparison with the
code's JS-falsy `jsOr` key. -/
def specSearchKey (r : UnlinkedInstance) : String :=
  r.deletedComponentName.getD r.instanceName

/-- Modelled from the spec: the Replacer search key as the claim words it — the fresh
`deletedDefinitionName` if the instance appears in the fresh unlinked map, else the
instance's live name — for comparison with the code's `replaceSearchName`. -/
def specReplaceSearchKey (unlinkedInstancesMap : List (String × UnlinkedInstance)) (instanceId : String) (liveName : String) : String :=
  match mapGet unlinkedInstancesMap instanceId with
  | some u => u.deletedComponentName.getD liveName
  | none => liveName

/-! Concrete document states used by witnesses and counterexamples. -/

/-- A dangling main component: deleted from the tree but still referenced. -/
def mainLost : MainComponentInfo :=
  { name := "Lost/Button", parent := none, removed := false, remote := false, nodeType := "COMPONENT" }

/-- An instance whose backing definition was deleted. -/
def instLost : InstData :=
  { id := "i-lost", name := "Button", mainComponent := .ok (some mainLost), swapThrows := false }

/-- A correctly linked instance. -/
def instLinked : InstData :=
  { id := "i-linked", name := "Button"
    mainComponent := .ok (some { name := "Button", parent := some "pg", removed := false, remote := false, nodeType := "COMPONENT" })
    swapThrows := false }

/-- An instance whose `getMainComponentAsync` resolves to `null`. -/
def instNullMain : InstData :=
  { id := "i-null", name := "Loose", mainComponent := .ok none, swapThrows := false }

/-- A page mixing linked, unlinked and null-main instances, an unnamed group under the
frame `"Hero"`, and two local components (one a case variant of the lost name). -/
def pageMix : Page :=
  { name := "Page 1"
    nodes := [([], .frameD "f1" "Hero"),
              (["Hero"], .instD instLinked),
              (["", "Hero"], .instD instLost),
              ([], .instD instNullMain),
              ([], .compD { id := "comp-button", name := "Button", removed := false, remote := false }),
              ([], .compD { id := "comp-lost", name := "lost/button", removed := false, remote := false })] }

/-- A one-page document exercising every classification case. -/
def docMix : DocState := { currentPage := pageMix, allPages := [pageMix] }

/-- The single record a current-page scan of `docMix` produces. -/
def recMix : UnlinkedInstance :=
  { instanceId := "i-lost", instanceName := "Button", pageName := "Page 1", parentName := "Hero"
    matchedComponentId := none, matchedComponentName := none
    deletedComponentName := some "Lost/Button" }

/-- An instance whose orphaned main component is named the empty string. -/
def instEmptyName : InstData :=
  { id := "i1", name := "Card"
    mainComponent := .ok (some { name := "", parent := none, removed := false, remote := false, nodeType := "COMPONENT" })
    swapThrows := false }

/-- A page holding `instEmptyName` and a component that collides with the instance's
live name. -/
def pageEmptyName : Page :=
  { name := "Page E"
    nodes := [([], .instD instEmptyName),
              ([], .compD { id := "c1", name := "Card", removed := false, remote := false })] }

/-- Document for the empty-deleted-name corner of the Replacer. -/
def docEmptyName : DocState := { currentPage := pageEmptyName, allPages := [pageEmptyName] }

/-- The fresh record a current-page scan of `docEmptyName` produces. -/
def recEmptyName : UnlinkedInstance :=
  { instanceId := "i1", instanceName := "Card", pageName := "Page E", parentName := "Root"
    matchedComponentId := none, matchedComponentName := none, deletedComponentName := some "" }

/-- The fresh id-keyed map the replace branch builds over `docEmptyName`. -/
def freshMapEmptyName : List (String × UnlinkedInstance) :=
  jsMapOfList ([recEmptyName].map (fun inst => (inst.instanceId, inst)))

/-- A lone component named `"Card"`. -/
def compCard : ComponentData := { id := "c-card", name := "Card", removed := false, remote := false }

/-- A page holding only `compCard`. -/
def pageCard : Page := { name := "Page C", nodes := [([], .compD compCard)] }

/-- Document for the Matcher key and case-insensitivity checks. -/
def docCard : DocState := { currentPage := pageCard, allPages := [pageCard] }

/-- A record whose recorded deleted-definition name is `k` (other fields fixed). -/
def keyRec (k : String) : UnlinkedInstance :=
  { instanceId := "i-k", instanceName := "Fallback", pageName := "Page C", parentName := "Root"
    matchedComponentId := none, matchedComponentName := none, deletedComponentName := some k }

/-- A record with recorded name `some ""` whose instance name collides with a real
component. -/
def emptyKeyRec : UnlinkedInstance :=
  { instanceId := "i-e", instanceName := "Card", pageName := "Page C", parentName := "Root"
    matchedComponentId := none, matchedComponentName := none, deletedComponentName := some "" }

/-- First of two same-named (up to case) components. -/
def badgeFirst : ComponentData := { id := "badge-1", name := "Badge", removed := false, remote := false }

/-- Second of two same-named (up to case) components. -/
def badgeSecond : ComponentData := { id := "badge-2", name := "badge", removed := false, remote := false }

/-- A traversal enumeration with a name collision. -/
def badgeComps : List ComponentData := [badgeFirst, badgeSecond]

/-- A page with 120 instances, all correctly resolving to `null` main components. -/
def doc120Page : Page :=
  { name := "Big page"
    nodes := (List.range 120).map (fun n =>
      ([], .instD { id := toString n, name := "Widget", mainComponent := .ok none, swapThrows := false })) }

/-- Document with 120 in-scope instances for the batching/progress check. -/
def doc120 : DocState := { currentPage := doc120Page, allPages := [doc120Page] }

/-- An instance whose `getMainComponentAsync` promise rejects. -/
def instRejects : InstData :=
  { id := "i-bad", name := "Broken", mainComponent := .error (), swapThrows := false }

/-- A page where one resolution rejects while a later instance is genuinely unlinked. -/
def pageReject : Page :=
  { name := "Page R", nodes := [([], .instD instRejects), ([], .instD instLost)] }

/-- Document for the scan failure-isolation check. -/
def docReject : DocState := { currentPage := pageReject, allPages := [pageReject] }

/-- An unlinked instance for which the host `swapComponent` call throws. -/
def instThrows : InstData :=
  { id := "i-throw", name := "Chip", mainComponent := .ok (some mainLost), swapThrows := true }

/-- A page with a throwing instance, a repointable twin, and a matching component. -/
def pageThrow : Page :=
  { name := "Page T"
    nodes := [([], .instD instThrows),
              ([], .instD { id := "i-ok", name := "Chip", mainComponent := .ok (some mainLost), swapThrows := false }),
              ([], .compD { id := "c-chip", name := "Chip", removed := false, remote := false })] }

/-- Document for the partial-failure-isolation check of the Replacer. -/
def docThrow : DocState := { currentPage := pageThrow, allPages := [pageThrow] }

/-! Helper lemmas about the JS `Map` model. -/

theorem mapGet_mapSet {α : Type} (m : List (String × α)) (k key : String) (v : α) :
    mapGet (mapSet m k v) key = if k = key then some v else mapGet m key := by
  induction m with
  | nil => simp [mapSet, mapGet, beq_iff_eq]
  | cons p rest ih =>
    obtain ⟨k', w⟩ := p
    by_cases h1 : k' = k
    · subst h1
      by_cases h2 : k' = key
      · subst h2
        simp [mapSet, mapGet]
      · simp [mapSet, mapGet, h2, beq_iff_eq]
    · by_cases h2 : k' = key
      · subst h2
        have h3 : ¬(k = k') := fun h => h1 h.symm
        simp [mapSet, mapGet, h1, h3, beq_iff_eq]
      · simp [mapSet, mapGet, h1, h2, ih, beq_iff_eq]

theorem mapGet_buildFold (comps : List ComponentData) :
    ∀ (m : List (String × ComponentData)) (key : String),
      mapGet (comps.foldl (fun m c =>
          if (mapGet m (strLower c.name)).isSome then m else mapSet m (strLower c.name) c) m) key =
        match mapGet m key with
        | some v => some v
        | none => comps.find? (fun c => strLower c.name == key) := by
  induction comps with
  | nil =>
    intro m key
    rw [List.foldl_nil]
    cases h : mapGet m key <;> rfl
  | cons c cs ih =>
    intro m key
    rw [List.foldl_cons, ih]
    by_cases hc : (mapGet m (strLower c.name)).isSome = true
    · rw [if_pos hc]
      cases hmk : mapGet m key with
      | some v => rfl
      | none =>
        have hne : (strLower c.name == key) = false := by
          rw [beq_eq_false_iff_ne]
          intro h
          rw [h, hmk] at hc
          simp at hc
        show cs.find? _ = (c :: cs).find? _
        simp [List.find?_cons, hne]
    · rw [if_neg hc, mapGet_mapSet]
      by_cases hk : strLower c.name = key
      · rw [if_pos hk]
        have hmk : mapGet m key = none := by
          rw [← hk]
          exact Option.not_isSome_iff_eq_none.mp hc
        rw [hmk]
        show some c = (c :: cs).find? _
        simp [List.find?_cons, hk]
      · rw [if_neg hk]
        have hne : (strLower c.name == key) = false := beq_eq_false_iff_ne.mpr hk
        cases hmk : mapGet m key with
        | some v => rfl
        | none =>
          show cs.find? _ = (c :: cs).find? _
          simp [List.find?_cons, hne]

theorem mapGet_buildComponentMap (comps : List ComponentData) (key : String) :
    mapGet (buildComponentMap comps) key = comps.find? (fun c => strLower c.name == key) := by
  have h := mapGet_buildFold comps [] key
  simpa [buildComponentMap, mapGet] using h

/-! Helper lemma: `List.find?` returns the first match. -/

theorem find?_first_index {α : Type} (p : α → Bool) :
    ∀ (l : List α) (c : α), l.find? p = some c →
      ∃ k, ∃ (hk : k < l.length), l.get ⟨k, hk⟩ = c ∧ p c = true ∧
        ∀ k' (hk' : k' < l.length), k' < k → p (l.get ⟨k', hk'⟩) = false := by
  intro l
  induction l with
  | nil => intro c h; simp [List.find?] at h
  | cons a as ih =>
    intro c h
    rw [List.find?_cons] at h
    cases hp : p a with
    | true =>
      rw [hp] at h
      have hac : a = c := Option.some.inj h
      refine ⟨0, Nat.succ_pos _, hac, ?_, ?_⟩
      · rw [← hac]; exact hp
      · intro k' hk' hlt
        exact absurd hlt (Nat.not_lt_zero k')
    | false =>
      rw [hp] at h
      obtain ⟨k, hk, hget, hpc, hfirst⟩ := ih c h
      refine ⟨k + 1, Nat.succ_lt_succ hk, by simpa using hget, hpc, ?_⟩
      intro k' hk' hlt
      cases k' with
      | zero => simpa using hp
      | succ k'' =>
        have hlt'' : k'' < k := Nat.lt_of_succ_lt_succ hlt
        have hk'' : k'' < as.length := Nat.lt_of_succ_lt_succ (by simpa using hk')
        simpa using hfirst k'' hk'' hlt''

/-! Helper lemmas about the Scanner. -/

theorem scanItems_of_resolves (pn : String) :
    ∀ items : List (List String × InstData),
      (∀ it ∈ items, resolveOk it.2.mainComponent = true) →
      scanItems pn items = .ok (items.filterMap (fun it =>
        match it.2.mainComponent with
        | .ok mc => if isUnlinked mc then mc.map (mkRecord pn it.1 it.2) else none
        | .error _ => none)) := by
  intro items
  induction items with
  | nil => intro h; rfl
  | cons it rest ih =>
    intro h
    obtain ⟨anc, d⟩ := it
    have hd := h _ (List.mem_cons_self _ _)
    have hrest := fun x hx => h x (List.mem_cons_of_mem _ hx)
    cases hmc : d.mainComponent with
    | error e => rw [hmc] at hd; simp [resolveOk] at hd
    | ok mc =>
      simp only [scanItems, hmc, ih hrest, List.filterMap_cons]
      cases mc with
      | none => rfl
      | some m =>
        by_cases hu : isUnlinked (some m) = true
        · simp [hu]
        · simp [hu]

theorem scanItems_error_iff (pn : String) :
    ∀ items : List (List String × InstData),
      (scanItems pn items = .error ()) ↔ ∃ it ∈ items, it.2.mainComponent = .error () := by
  intro items
  induction items with
  | nil =>
    constructor
    · intro h
      exact absurd h (by simp [scanItems])
    · rintro ⟨x, hx, _⟩
      simp at hx
  | cons it rest ih =>
    obtain ⟨anc, d⟩ := it
    constructor
    · intro h
      cases hmc : d.mainComponent with
      | error e => exact ⟨(anc, d), List.mem_cons_self _ _, by rw [hmc]⟩
      | ok mc =>
        cases hrest : scanItems pn rest with
        | error e =>
          obtain ⟨x, hx, hxe⟩ := ih.mp (by rw [hrest])
          exact ⟨x, List.mem_cons_of_mem _ hx, hxe⟩
        | ok tail =>
          exfalso
          simp only [scanItems, hmc, hrest] at h
          cases mc with
          | none => simp at h
          | some m => cases hu : isUnlinked (some m) <;> simp [hu] at h
    · rintro ⟨x, hx, hxe⟩
      rcases List.mem_cons.mp hx with h1 | h2
      · have hxe' : d.mainComponent = .error () := by rw [h1] at hxe; exact hxe
        simp [scanItems, hxe']
      · have hrest : scanItems pn rest = .error () := ih.mpr ⟨x, h2, hxe⟩
        cases hmc : d.mainComponent with
        | error e => cases e; simp [scanItems, hmc]
        | ok mc =>
          cases mc with
          | none => simp [scanItems, hmc, hrest]
          | some m => cases hu : isUnlinked (some m) <;> simp [scanItems, hmc, hrest, hu]

theorem scanItems_matched_none (pn : String) :
    ∀ (items : List (List String × InstData)) (l : List UnlinkedInstance),
      scanItems pn items = .ok l →
      ∀ r ∈ l, r.matchedComponentId = none ∧ r.matchedComponentName = none := by
  intro items
  induction items with
  | nil =>
    intro l h r hr
    simp only [scanItems] at h
    cases h
    simp at hr
  | cons it rest ih =>
    intro l h r hr
    obtain ⟨anc, d⟩ := it
    cases hmc : d.mainComponent with
    | error e =>
      exfalso
      simp [scanItems, hmc] at h
    | ok mc =>
      cases hrest : scanItems pn rest with
      | error e =>
        exfalso
        simp [scanItems, hmc, hrest] at h
      | ok tail =>
        simp only [scanItems, hmc, hrest] at h
        cases mc with
        | none =>
          simp only [Except.ok.injEq] at h
          rw [← h] at hr
          exact ih tail hrest r hr
        | some m =>
          cases hu : isUnlinked (some m) with
          | false =>
            simp only [hu, Bool.false_eq_true, if_false, Except.ok.injEq] at h
            rw [← h] at hr
            exact ih tail hrest r hr
          | true =>
            simp only [hu, if_true, Except.ok.injEq] at h
            rw [← h] at hr
            rcases List.mem_cons.mp hr with h1 | h2
            · rw [h1]; exact ⟨rfl, rfl⟩
            · exact ih tail hrest r h2

theorem scanPages_of_resolves :
    ∀ pages : List Page,
      (∀ pg ∈ pages, ∀ it ∈ instancesWithCtx pg, resolveOk it.2.mainComponent = true) →
      scanPages pages = .ok ((pages.map (fun pg =>
        (instancesWithCtx pg).filterMap (fun it =>
          match it.2.mainComponent with
          | .ok mc => if isUnlinked mc then mc.map (mkRecord pg.name it.1 it.2) else none
          | .error _ => none))).flatten) := by
  intro pages
  induction pages with
  | nil => intro h; rfl
  | cons pg rest ih =>
    intro h
    have hpg := h pg (List.mem_cons_self _ _)
    have hrest := fun x hx => h x (List.mem_cons_of_mem _ hx)
    simp only [scanPages, scanItems_of_resolves pg.name _ hpg, ih hrest, List.map_cons,
      List.flatten_cons]

theorem scanPages_error_iff :
    ∀ pages : List Page,
      (scanPages pages = .error ()) ↔
        ∃ pg ∈ pages, ∃ it ∈ instancesWithCtx pg, it.2.mainComponent = .error () := by
  intro pages
  induction pages with
  | nil =>
    constructor
    · intro h
      exact absurd h (by simp [scanPages])
    · rintro ⟨x, hx, _⟩
      simp at hx
  | cons pg rest ih =>
    constructor
    · intro h
      cases hpg : scanItems pg.name (instancesWithCtx pg) with
      | error e =>
        obtain ⟨it, hit, hite⟩ := (scanItems_error_iff pg.name _).mp (by rw [hpg])
        exact ⟨pg, List.mem_cons_self _ _, it, hit, hite⟩
      | ok here =>
        cases hrest : scanPages rest with
        | error e =>
          obtain ⟨x, hx, hxe⟩ := ih.mp (by rw [hrest])
          exact ⟨x, List.mem_cons_of_mem _ hx, hxe⟩
        | ok tail =>
          exfalso
          simp [scanPages, hpg, hrest] at h
    · rintro ⟨x, hx, hxe⟩
      rcases List.mem_cons.mp hx with h1 | h2
      · have hx' : scanItems x.name (instancesWithCtx x) = .error () :=
          (scanItems_error_iff x.name _).mpr hxe
        rw [h1] at hx'
        simp [scanPages, hx']
      · have hrest : scanPages rest = .error () := ih.mpr ⟨x, h2, hxe⟩
        cases hpg : scanItems pg.name (instancesWithCtx pg) with
        | error e => cases e; simp [scanPages, hpg]
        | ok here => simp [scanPages, hpg, hrest]

theorem scanPages_matched_none :
    ∀ (pages : List Page) (l : List UnlinkedInstance),
      scanPages pages = .ok l →
      ∀ r ∈ l, r.matchedComponentId = none ∧ r.matchedComponentName = none := by
  intro pages
  induction pages with
  | nil =>
    intro l h r hr
    simp only [scanPages, Except.ok.injEq] at h
    rw [← h] at hr
    simp at hr
  | cons pg rest ih =>
    intro l h r hr
    cases hpg : scanItems pg.name (instancesWithCtx pg) with
    | error e =>
      exfalso
      simp [scanPages, hpg] at h
    | ok here =>
      cases hrest : scanPages rest with
      | error e =>
        exfalso
        simp [scanPages, hpg, hrest] at h
      | ok tail =>
        simp only [scanPages, hpg, hrest, Except.ok.injEq] at h
        rw [← h] at hr
        rcases List.mem_append.mp hr with h1 | h2
        · exact scanItems_matched_none pg.name _ here hpg r h1
        · exact ih tail hrest r h2

/-! Helper lemmas about the Replacer loop. -/

theorem successCountOf_append (s : DocState) (m : List (String × UnlinkedInstance)) :
    ∀ l1 l2 : List String,
      successCountOf s m (l1 ++ l2) = successCountOf s m l1 + successCountOf s m l2 := by
  intro l1 l2
  induction l1 with
  | nil => simp [successCountOf]
  | cons id rest ih =>
    simp only [List.cons_append, successCountOf, List.append_eq, ih, Nat.add_assoc]

theorem successCountOf_eq_countP (s : DocState) (m : List (String × UnlinkedInstance)) :
    ∀ ids : List String, successCountOf s m ids = ids.countP (replaceSucceeds s m) := by
  intro ids
  induction ids with
  | nil => rfl
  | cons id rest ih =>
    have harm : (match replaceOne s m id with
        | .ok true => 1
        | _ => 0) = if replaceSucceeds s m id then 1 else 0 := by
      cases hro : replaceOne s m id with
      | error e => simp [replaceSucceeds, hro]
      | ok b => cases b <;> simp [replaceSucceeds, hro]
    simp only [successCountOf, ih, List.countP_cons, harm]
    omega

/-! Helper lemmas about the Matcher. -/

theorem findMatchingComponents_length (s : DocState) (records : List UnlinkedInstance) :
    (findMatchingComponents s records).length = records.length := by
  simp [findMatchingComponents]

theorem findMatchingComponents_getElem? (s : DocState) (records : List UnlinkedInstance) (i : Nat) :
    (findMatchingComponents s records)[i]? = (records[i]?).map (fun r =>
      match (allComponentsOf s).find? (fun c =>
          strLower c.name == strLower (jsOr r.deletedComponentName r.instanceName)) with
      | some c => { r with matchedComponentId := some c.id, matchedComponentName := some c.name }
      | none => r) := by
  simp only [findMatchingComponents, List.getElem?_map]
  cases records[i]? with
  | none => rfl
  | some r =>
    simp only [Option.map_some']
    rw [mapGet_buildComponentMap]

theorem mem_allComponentsOf (s : DocState) (c : ComponentData) :
    c ∈ allComponentsOf s ↔ ∃ pg ∈ s.allPages, c ∈ pageComponents pg := by
  simp [allComponentsOf, List.mem_flatten, List.mem_map]

/-! The claim theorems. -/

/-- C1: for every instance node the Scanner classifies it as unlinked iff all five
conditions hold — non-null backing reference, the referenced node's parent is null, it
is not flagged removed, not flagged remote, and its kind is still `"COMPONENT"` — and a
scan whose resolutions all succeed emits exactly one record per instance satisfying the
predicate, in traversal order, and no record for any instance failing any condition. -/
theorem C1_scanner_classification (scope : Scope) (s : DocState)
    (h : scanResolves scope s = true) :
    (∀ mc : Option MainComponentInfo,
        isUnlinked mc = true ↔
          ∃ m, mc = some m ∧ m.parent = none ∧ m.removed = false ∧ m.remote = false ∧
            m.nodeType = "COMPONENT") ∧
    findUnlinkedInstances scope s = .ok (scanRecords scope s) := by
  constructor
  · intro mc
    cases mc with
    | none => simp [isUnlinked]
    | some m => simp [isUnlinked, Option.isNone_iff_eq_none, and_assoc]
  · unfold findUnlinkedInstances scanRecords
    apply scanPages_of_resolves
    intro pg hpg it hit
    have hall := List.all_eq_true.mp h pg hpg
    exact List.all_eq_true.mp hall it hit

/-- C1 witness: over the mixed document every resolution succeeds and the scan emits
exactly the declarative record list. -/
theorem C1_scanner_classification_witness :
    scanResolves .currentPage docMix = true ∧
    findUnlinkedInstances .currentPage docMix = .ok (scanRecords .currentPage docMix) :=
  ⟨by decide, (C1_scanner_classification .currentPage docMix (by decide)).2⟩

/-- C2: `replaceInstances` returns `totalCount` equal to the request length and
`successCount` equal to the number of identifiers whose iteration actually repoints;
each identifier contributes independently — a throwing iteration is caught at the
per-item boundary and contributes 0 while the rest of the batch is still processed, as
the count additivity over any split and the explicit throwing-middle equation state. -/
theorem C2_replace_batch_accounting (s : DocState) (m : List (String × UnlinkedInstance))
    (ids pre post : List String) :
    (replaceInstances s ids m).totalCount = ids.length ∧
    (replaceInstances s ids m).successCount = ids.countP (replaceSucceeds s m) ∧
    (replaceInstances s (pre ++ post) m).successCount =
      (replaceInstances s pre m).successCount + (replaceInstances s post m).successCount ∧
    (∀ bad : String, replaceOne s m bad = .error () →
      (replaceInstances s (pre ++ bad :: post) m).successCount =
        (replaceInstances s pre m).successCount + (replaceInstances s post m).successCount) := by
  refine ⟨rfl, successCountOf_eq_countP s m ids, successCountOf_append s m pre post, ?_⟩
  intro bad hbad
  show successCountOf s m (pre ++ bad :: post) = _
  rw [successCountOf_append s m pre (bad :: post)]
  simp only [successCountOf, hbad, replaceInstances]
  omega

/-- C2 witness: a batch whose middle identifier throws during `swapComponent` still
repoints the identifiers before and after it. -/
theorem C2_replace_batch_accounting_witness :
    replaceOne docThrow [] "i-throw" = .error () ∧
    (replaceInstances docThrow (["i-ok"] ++ "i-throw" :: ["i-ok"]) []).successCount =
      (replaceInstances docThrow ["i-ok"] []).successCount +
        (replaceInstances docThrow ["i-ok"] []).successCount :=
  ⟨rfl, (C2_replace_batch_accounting docThrow [] [] ["i-ok"] ["i-ok"]).2.2.2 "i-throw" rfl⟩

/-- C3 counterexample: over `docEmptyName` the fresh current-page scan does list instance
`"i1"`, with recorded deleted name `some ""`; the claim's search key is therefore that
fresh `deletedDefinitionName` — the empty string, which matches no component — yet the
code's key falls back to the live name `"Card"` (JS `||` treats `""` as absent) and the
batch repoints the instance, returning `successCount = 1` where the claim forces 0. -/
theorem C3_counterexample :
    findUnlinkedInstances .currentPage docEmptyName = .ok [recEmptyName] ∧
    recEmptyName.deletedComponentName = some "" ∧
    specReplaceSearchKey freshMapEmptyName "i1" "Card" = "" ∧
    replaceSearchName freshMapEmptyName "i1" "Card" = "Card" ∧
    (allComponentsOf docEmptyName).find? (fun c => strLower c.name == strLower "") = none ∧
    handleReplace docEmptyName ["i1"] = .ok { successCount := 1, totalCount := 1 } :=
  ⟨rfl, rfl, rfl, rfl, rfl, rfl⟩

/-- C3 (amended): the replace branch re-runs the Scanner over the current page only and
bases repointing and accounting on that fresh result alone — the request carries only
instance identifiers, never the caller's scan-time records: the branch equals
`replaceInstances` over the fresh id-keyed map, the per-item search key is the freshly
re-scanned `deletedComponentName` whenever the instance is in the fresh map with a
non-empty recorded name and otherwise the instance's current live name (JS `||`
falsiness), and `successCount` counts exactly the identifiers the fresh resolution
repoints. -/
theorem C3_replacer_fresh_resolution (s : DocState) (ids : List String)
    (fresh : List UnlinkedInstance)
    (h : findUnlinkedInstances .currentPage s = .ok fresh) :
    handleReplace s ids =
      .ok (replaceInstances s ids
        (jsMapOfList (fresh.map (fun inst => (inst.instanceId, inst))))) ∧
    (∀ id liveName,
      replaceSearchName (jsMapOfList (fresh.map (fun inst => (inst.instanceId, inst)))) id liveName =
        match mapGet (jsMapOfList (fresh.map (fun inst => (inst.instanceId, inst)))) id with
        | some u =>
          match u.deletedComponentName with
          | some dn => if dn = "" then liveName else dn
          | none => liveName
        | none => liveName) ∧
    (handleReplace s ids).map (fun res => res.successCount) =
      .ok (ids.countP (replaceSucceeds s
        (jsMapOfList (fresh.map (fun inst => (inst.instanceId, inst)))))) := by
  refine ⟨?_, ?_, ?_⟩
  · simp [handleReplace, h]
  · intro id liveName
    cases hmg : mapGet (jsMapOfList (fresh.map (fun inst => (inst.instanceId, inst)))) id with
    | none => simp [replaceSearchName, hmg, jsOr]
    | some u =>
      cases hdn : u.deletedComponentName with
      | none => simp [replaceSearchName, hmg, hdn, jsOr]
      | some dn =>
        by_cases h0 : dn = ""
        · simp [replaceSearchName, hmg, hdn, jsOr, h0]
        · simp [replaceSearchName, hmg, hdn, jsOr, h0, beq_iff_eq]
  · simp [handleReplace, h, Except.map, replaceInstances, successCountOf_eq_countP]

/-- C3 witness: the amended characterization applied to the empty-name document. -/
theorem C3_replacer_fresh_resolution_witness :
    findUnlinkedInstances .currentPage docEmptyName = .ok [recEmptyName] ∧
    handleReplace docEmptyName ["i1"] =
      .ok (replaceInstances docEmptyName ["i1"]
        (jsMapOfList ([recEmptyName].map (fun inst => (inst.instanceId, inst))))) :=
  ⟨rfl, (C3_replacer_fresh_resolution docEmptyName ["i1"] [recEmptyName] rfl).1⟩

/-- C4 counterexample: for a record whose `deletedComponentName` is `some ""` — present —
and whose `instanceName` is `"Card"`, the claim's key is the present `""`, which matches
no component, so the claim predicts both matched fields stay `null`; the Matcher instead
falls back to the instance name (JS `||` treats `""` as absent) and annotates the record
with the `"Card"` component. -/
theorem C4_counterexample :
    specSearchKey emptyKeyRec = "" ∧
    mapGet (buildComponentMap (allComponentsOf docCard)) (strLower "") = none ∧
    findMatchingComponents docCard [emptyKeyRec] =
      [{ emptyKeyRec with matchedComponentId := some "c-card", matchedComponentName := some "Card" }] :=
  ⟨rfl, rfl, rfl⟩

/-- C4 (amended): the Matcher's search key is `deletedComponentName` when present and
non-empty, else `instanceName` (JS `||` falsiness); the key is matched by
case-insensitive exact string equality only — no trimming, no fuzzy distance —
equivalently against the first component in traversal order whose lower-cased name
equals the lower-cased key; on a hit both matched fields are set from that component,
otherwise the record is returned unchanged (fields that were `null` stay `null`).
Concretely, a definition `"Card"` matches keys `"card"` and `"CARD"` but not `"Car"`
and not `" Card"`. -/
theorem C4_matcher_key_and_matching (s : DocState) (records : List UnlinkedInstance)
    (i : Nat) (r : UnlinkedInstance) (h : records[i]? = some r) :
    (findMatchingComponents s records)[i]? =
      some (match (allComponentsOf s).find? (fun c =>
              strLower c.name == strLower (jsOr r.deletedComponentName r.instanceName)) with
            | some c => { r with matchedComponentId := some c.id, matchedComponentName := some c.name }
            | none => r) ∧
    (findMatchingComponents docCard [keyRec "card"]).map (fun x => x.matchedComponentId) =
      [some "c-card"] ∧
    (findMatchingComponents docCard [keyRec "CARD"]).map (fun x => x.matchedComponentId) =
      [some "c-card"] ∧
    (findMatchingComponents docCard [keyRec "Car"]).map (fun x => x.matchedComponentId) =
      [none] ∧
    (findMatchingComponents docCard [keyRec " Card"]).map (fun x => x.matchedComponentId) =
      [none] := by
  refine ⟨?_, rfl, rfl, rfl, rfl⟩
  rw [findMatchingComponents_getElem?, h]
  rfl

/-- C4 witness: the amended characterization applied to the case-variant key. -/
theorem C4_matcher_key_and_matching_witness :
    ([keyRec "card"] : List UnlinkedInstance)[0]? = some (keyRec "card") ∧
    (findMatchingComponents docCard [keyRec "card"])[0]? =
      some (match (allComponentsOf docCard).find? (fun c =>
              strLower c.name ==
                strLower (jsOr (keyRec "card").deletedComponentName (keyRec "card").instanceName)) with
            | some c =>
              { keyRec "card" with matchedComponentId := some c.id, matchedComponentName := some c.name }
            | none => keyRec "card") :=
  ⟨rfl, (C4_matcher_key_and_matching docCard [keyRec "card"] 0 (keyRec "card") rfl).1⟩

/-- C5: when two definitions collide on their lower-cased name, the index maps that name
to the definition encountered first in traversal order — the lookup equals `find?`, the
first-match search, and its result sits at an index no later than the earlier collider —
and the later definition, when distinct from every earlier entry, is never reachable via
lookup under any key; the index is a pure function of the enumeration, rebuilt fresh per
invocation. -/
theorem C5_first_seen_wins (comps : List ComponentData) (i j : Nat) (hij : i < j)
    (hj : j < comps.length)
    (hname : strLower ((comps.get ⟨i, Nat.lt_trans hij hj⟩).name) =
      strLower ((comps.get ⟨j, hj⟩).name)) :
    mapGet (buildComponentMap comps) (strLower ((comps.get ⟨j, hj⟩).name)) =
      comps.find? (fun c => strLower c.name == strLower ((comps.get ⟨j, hj⟩).name)) ∧
    (∃ k, ∃ (hk : k < comps.length), k ≤ i ∧
      mapGet (buildComponentMap comps) (strLower ((comps.get ⟨j, hj⟩).name)) =
        some (comps.get ⟨k, hk⟩)) ∧
    ((∀ k (hk : k < comps.length), k < j → comps.get ⟨k, hk⟩ ≠ comps.get ⟨j, hj⟩) →
      ∀ key, mapGet (buildComponentMap comps) key ≠ some (comps.get ⟨j, hj⟩)) := by
  have hi := Nat.lt_trans hij hj
  have hpi : (strLower ((comps.get ⟨i, hi⟩).name) == strLower ((comps.get ⟨j, hj⟩).name)) = true :=
    beq_iff_eq.mpr hname
  refine ⟨mapGet_buildComponentMap comps _, ?_, ?_⟩
  · cases hf : comps.find? (fun c => strLower c.name == strLower ((comps.get ⟨j, hj⟩).name)) with
    | none =>
      exfalso
      have := List.find?_eq_none.mp hf (comps.get ⟨i, hi⟩) (List.get_mem comps i hi)
      exact this hpi
    | some c =>
      obtain ⟨k, hk, hget, hpc, hfirst⟩ := find?_first_index _ comps c hf
      have hki : k ≤ i := by
        by_contra hgt
        have hik : i < k := Nat.lt_of_not_le hgt
        have := hfirst i hi hik
        rw [hpi] at this
        exact Bool.noConfusion this
      exact ⟨k, hk, hki, by rw [mapGet_buildComponentMap, hf, hget]⟩
  · intro hdist key hcontra
    rw [mapGet_buildComponentMap] at hcontra
    obtain ⟨k, hk, hget, hpc, hfirst⟩ := find?_first_index _ comps _ hcontra
    have hkey : key = strLower ((comps.get ⟨j, hj⟩).name) := (beq_iff_eq.mp hpc).symm
    have hpik : (strLower ((comps.get ⟨i, hi⟩).name) == key) = true := by
      rw [hkey]
      exact hpi
    have hki : k ≤ i := by
      by_contra hgt
      have hik : i < k := Nat.lt_of_not_le hgt
      have := hfirst i hi hik
      rw [hpik] at this
      exact Bool.noConfusion this
    exact hdist k hk (Nat.lt_of_le_of_lt hki hij) hget

/-- C5 witness: two components named `"Badge"` and `"badge"`; the index lookup for the
shared lower-cased name is the first-match search. -/
theorem C5_first_seen_wins_witness :
    strLower ((badgeComps.get ⟨0, by decide⟩).name) = strLower ((badgeComps.get ⟨1, by decide⟩).name) ∧
    mapGet (buildComponentMap badgeComps) (strLower ((badgeComps.get ⟨1, by decide⟩).name)) =
      badgeComps.find? (fun c => strLower c.name == strLower ((badgeComps.get ⟨1, by decide⟩).name)) :=
  ⟨by decide, (C5_first_seen_wins badgeComps 0 1 (by decide) (by decide) (by decide)).1⟩

/-- C6: the Matcher is length- and order-preserving — output `i` corresponds to input
`i`, each output record equal to its input record except possibly the matched-component
annotation — and, being a pure function of the document state and the input list, two
calls on the same input over the same state yield identical output. -/
theorem C6_matcher_shape_determinism (s : DocState) (records : List UnlinkedInstance) :
    (findMatchingComponents s records).length = records.length ∧
    (∀ (i : Nat) (r : UnlinkedInstance), records[i]? = some r →
      ∃ q, (findMatchingComponents s records)[i]? = some q ∧
        (q = r ∨ ∃ cid cname,
          q = { r with matchedComponentId := some cid, matchedComponentName := some cname })) ∧
    findMatchingComponents s records = findMatchingComponents s records := by
  refine ⟨findMatchingComponents_length s records, ?_, rfl⟩
  intro i r h
  rw [findMatchingComponents_getElem?, h]
  simp only [Option.map_some']
  cases hf : (allComponentsOf s).find? (fun c =>
      strLower c.name == strLower (jsOr r.deletedComponentName r.instanceName)) with
  | none => exact ⟨r, rfl, Or.inl rfl⟩
  | some c => exact ⟨_, rfl, Or.inr ⟨c.id, c.name, rfl⟩⟩

/-- C6 witness: the order-preservation conjunct applied at index 0 of a one-record
input. -/
theorem C6_matcher_shape_determinism_witness :
    ∃ q, (findMatchingComponents docCard [keyRec "Car"])[0]? = some q ∧
      (q = keyRec "Car" ∨ ∃ cid cname,
        q = { keyRec "Car" with matchedComponentId := some cid, matchedComponentName := some cname }) :=
  (C6_matcher_shape_determinism docCard [keyRec "Car"]).2.1 0 (keyRec "Car") rfl

/-- C7: the Scanner does not batch and posts no per-batch progress notifications —
handling a scan request posts no `progress` message over any document, and in
particular a 120-instance current-page scan (for which the claim requires at least two
yield points and one progress notification per batch of 50) posts only the single
final `scan-result` message. -/
theorem C7_no_batching_no_progress :
    (∀ (s : DocState) (scope : Scope), (handleScan s scope).countP UIMessage.isProgress = 0) ∧
    (instancesWithCtx doc120.currentPage).length = 120 ∧
    handleScan doc120 .currentPage = [.scanResult []] := by
  refine ⟨?_, rfl, rfl⟩
  intro s scope
  unfold handleScan
  cases findUnlinkedInstances scope s <;> rfl

/-- C8 counterexample: in `docReject` the first instance's resolution rejects while a
later in-scope instance is genuinely unlinked; instead of skipping the failing instance
and completing with the other instance's record, the scan aborts — it returns an error,
no records at all, and the message handler posts a single error message. -/
theorem C8_counterexample :
    instRejects.mainComponent = .error () ∧
    instLost.mainComponent = .ok (some mainLost) ∧
    isUnlinked (some mainLost) = true ∧
    findUnlinkedInstances .currentPage docReject = .error () ∧
    handleScan docReject .currentPage = [.errorMsg "An unknown error occurred"] :=
  ⟨rfl, rfl, rfl, rfl, rfl⟩

/-- C8 (amended): a failure resolving one instance's backing-definition reference aborts
the whole scan — `findUnlinkedInstances` returns an error exactly when some in-scope
instance's resolution rejects, so no records are returned in that case; the failure is
surfaced as a single operation-level error, not recovered per item. -/
theorem C8_resolution_failure_aborts (scope : Scope) (s : DocState) :
    findUnlinkedInstances scope s = .error () ↔
      ∃ pg ∈ pagesToScan scope s, ∃ it ∈ instancesWithCtx pg,
        it.2.mainComponent = .error () :=
  scanPages_error_iff (pagesToScan scope s)

/-- C9: after scan-then-match every record's matched fields are either both `null` or
taken from a component that is a node of some page of the document — hence attached to
the tree — and, by the host invariant `componentFlagsOk`, not flagged removed and not
remote. -/
theorem C9_matched_component_valid (scope : Scope) (s : DocState)
    (recs : List UnlinkedInstance)
    (hwf : componentFlagsOk s = true)
    (hscan : findUnlinkedInstances scope s = .ok recs) :
    ∀ q ∈ findMatchingComponents s recs,
      (q.matchedComponentId = none ∧ q.matchedComponentName = none) ∨
      ∃ pg ∈ s.allPages, ∃ c ∈ pageComponents pg,
        q.matchedComponentId = some c.id ∧ q.matchedComponentName = some c.name ∧
        c.removed = false ∧ c.remote = false := by
  intro q hq
  obtain ⟨i, hi⟩ := List.mem_iff_get?.mp hq
  rw [List.get?_eq_getElem?, findMatchingComponents_getElem?] at hi
  cases hri : recs[i]? with
  | none => rw [hri] at hi; cases hi
  | some r =>
    rw [hri] at hi
    simp only [Option.map_some'] at hi
    have hrmem : r ∈ recs := by
      obtain ⟨hlt, heq⟩ := List.getElem?_eq_some.mp hri
      rw [← heq]
      exact List.getElem_mem hlt
    have hrnone := scanPages_matched_none (pagesToScan scope s) recs hscan r hrmem
    cases hf : (allComponentsOf s).find? (fun c =>
        strLower c.name == strLower (jsOr r.deletedComponentName r.instanceName)) with
    | none =>
      left
      rw [hf] at hi
      have hqr : r = q := Option.some.inj hi
      rw [← hqr]
      exact hrnone
    | some c =>
      right
      have hpc := List.find?_some hf
      have hcmem := List.mem_of_find?_eq_some hf
      obtain ⟨pg, hpg, hcpg⟩ := (mem_allComponentsOf s c).mp hcmem
      have hflags := List.all_eq_true.mp hwf c hcmem
      simp only [Bool.and_eq_true, beq_iff_eq] at hflags
      rw [hf] at hi
      have hqr : ({ r with matchedComponentId := some c.id, matchedComponentName := some c.name } :
          UnlinkedInstance) = q := Option.some.inj hi
      refine ⟨pg, hpg, c, hcpg, ?_, ?_, hflags.1, hflags.2⟩
      · rw [← hqr]
      · rw [← hqr]

/-- C9 witness: over the mixed document (whose matcher hit is the case-variant
`"lost/button"` component) the invariant holds for every produced record. -/
theorem C9_matched_component_valid_witness :
    componentFlagsOk docMix = true ∧
    findUnlinkedInstances .currentPage docMix = .ok [recMix] ∧
    ∀ q ∈ findMatchingComponents docMix [recMix],
      (q.matchedComponentId = none ∧ q.matchedComponentName = none) ∨
      ∃ pg ∈ docMix.allPages, ∃ c ∈ pageComponents pg,
        q.matchedComponentId = some c.id ∧ q.matchedComponentName = some c.name ∧
        c.removed = false ∧ c.remote = false :=
  ⟨by decide, rfl, C9_matched_component_valid .currentPage docMix [recMix] (by decide) rfl⟩

/-- C10: for every document state and search key, the Matcher's first-occurrence-wins
index lookup returns exactly the Replacer's per-item linear search result — the first
element of the full component enumeration whose lower-cased name equals the lower-cased
key — so the two lookup implementations are equivalent. -/
theorem C10_lookup_equivalence (s : DocState) (searchName : String) :
    mapGet (buildComponentMap (allComponentsOf s)) (strLower searchName) =
      (allComponentsOf s).find? (fun comp => strLower comp.name == strLower searchName) :=
  mapGet_buildComponentMap (allComponentsOf s) (strLower searchName)

end FixUnlinked
